import Mathlib

/-!
# Verification of the build-description compiler

Shallow embedding of the core of the `build` tool (files `build_dir/buildinfo.py`,
`build_dir/library.py`, `build_dir/util.py`, `build_dir/driver.py`) and proofs about
the build-model loader, the source-set change detector and the CMake generator.

Paths are modelled by their (normalized) string form.  Python dicts are modelled as
association lists with shadowing insertion at the front (lookup finds the most recent
binding, matching dict assignment semantics).  Fallible code returns `Except`.
-/

namespace Build

/-! ## Data model (`library.py` and `buildinfo.py`) -/

/-- `library.Library` from `library.py`. -/
structure Library where
  name : String
  find_package : List String
  pkg_check : List String
  include_dirs : List String
  link_dirs : List String
  link_libs : List String
deriving DecidableEq

/-- `buildinfo.TargetType` from `buildinfo.py`. -/
inductive TargetType where
  | executable
  | sharedlib
  | staticlib
deriving DecidableEq

/-- A validated per-target document entry (one element of `data["targets"]` after
schema validation).  The schema restricts the `type` string to
`executable|sharedlib|staticlib`, so the field is modelled directly by the enum;
`None` (absent key) defaults to executable in `target_type`. -/
structure TargetDoc where
  name : String
  type : Option TargetType
  srcs : List String
  flags : Option String
  libraries : Option (List String)
  include_dirs : Option (List String)
  install_to : Option (List String)
  install_includes : Option (List String)
deriving DecidableEq

/-- A validated project document (the JSON object accepted by `INFO_SCHEMA`). -/
structure InfoDoc where
  projectname : String
  builddir : String
  flags : Option String
  libraries : Option (List String)
  include_dirs : Option (List String)
  copy : Option (List String)
  targets : List TargetDoc
deriving DecidableEq

/-- `buildinfo.Target` (the resolved target of the build model). -/
structure Target where
  name : String
  type : TargetType
  srcs : List String
  flags : String
  libraries : List Library
  include_dirs : List String
  install_to : List String
  install_includes : List String
deriving DecidableEq

/-- `buildinfo.Info` (the resolved build model). -/
structure Info where
  projectname : String
  builddir : String
  copy : List String
  targets : List Target
deriving DecidableEq

/-- The inner helper `target_type` of `buildinfo.load`: an absent `type` key
defaults to executable. -/
def targetTypeOf (o : Option TargetType) : TargetType := o.getD .executable

/-- Association-list model of a Python dict: lookup returns the most recent binding. -/
def lookupS {α : Type} (k : String) : List (String × α) → Option α
  | [] => none
  | (k', v) :: r => if k = k' then some v else lookupS k r

/-! ## `util.unique_list` (identity key) -/

/-- `util.unique_list` with the default identity key: keeps the first occurrence of
each element, tracking the set of already-seen elements (`seen_set` in the source,
modelled as a list used only through membership). -/
def uniqueListAux [DecidableEq α] (seen : List α) : List α → List α
  | [] => []
  | x :: xs => if x ∈ seen then uniqueListAux seen xs else x :: uniqueListAux (x :: seen) xs

/-- `util.unique_list lst` with the default identity key. -/
def uniqueList [DecidableEq α] (l : List α) : List α := uniqueListAux [] l

/-! ## The build-model loader (`buildinfo.load`) -/

/-- The only failure of `buildinfo.load` on a schema-valid document: the bare dict
lookup `all_libraries[name]` raises `KeyError(name)`. -/
inductive LoadError where
  | keyError (key : String)
deriving DecidableEq

/-- Effectful `map` over `Except`, the monadic shape of the list comprehensions in
`buildinfo.load` (the first raised exception aborts the comprehension). -/
def mapExcept (f : α → Except ε β) : List α → Except ε (List β)
  | [] => .ok []
  | a :: as => do
      let b ← f a
      let bs ← mapExcept f as
      .ok (b :: bs)

/-- The self-referencing registry entry synthesized for a library-kind target
(`buildinfo.load`, the loop over `data["targets"]`). -/
def selfLib (n : String) : Library :=
  { name := n, find_package := [], pkg_check := [], include_dirs := [],
    link_dirs := [], link_libs := [n] }

/-- Whether a target document has a library kind
(`type in (TargetType.SHAREDLIB, TargetType.STATICLIB)`). -/
def isLibKind (t : TargetDoc) : Prop :=
  targetTypeOf t.type = .sharedlib ∨ targetTypeOf t.type = .staticlib

instance (t : TargetDoc) : Decidable (isLibKind t) := by
  unfold isLibKind; infer_instance

/-- One iteration of the registration loop of `buildinfo.load`: a library-kind
target binds its name to its self-referencing entry in the working registry. -/
def insertLib (reg : List (String × Library)) (t : TargetDoc) : List (String × Library) :=
  if isLibKind t then (t.name, selfLib t.name) :: reg else reg

/-- The merged registry used for resolution: the base catalog plus the
self-referencing entries of all library-kind targets, registered by the first loop
of `buildinfo.load` before any target's library list is resolved. -/
def mergedRegistry (libraries : List (String × Library)) (targets : List TargetDoc) :
    List (String × Library) :=
  targets.foldl insertLib libraries

/-- The lookup `all_libraries[name]` inside `get_libraries`: a bound name yields
its entry, an unbound one raises `KeyError(name)`. -/
def resolveName (all : List (String × Library)) (n : String) : Except LoadError Library :=
  match lookupS n all with
  | some lib => .ok lib
  | none => .error (.keyError n)

/-- The inner helper `get_libraries` of `buildinfo.load`: concatenate the
project-level and target-level name lists, de-duplicate keeping first occurrences,
then look each name up in the working registry. -/
def getLibraries (all : List (String × Library)) (infoLibs targetLibs : Option (List String)) :
    Except LoadError (List Library) :=
  mapExcept (resolveName all) (uniqueList ((infoLibs.getD []) ++ (targetLibs.getD [])))

/-- Construction of one `Target` inside the list comprehension of `buildinfo.load`. -/
def loadTarget (all : List (String × Library)) (doc : InfoDoc)
    (baseIncludes : List String) (baseFlags : String) (t : TargetDoc) :
    Except LoadError Target := do
  let libs ← getLibraries all doc.libraries t.libraries
  .ok { name := t.name
        type := targetTypeOf t.type
        srcs := t.srcs
        flags := (baseFlags ++ t.flags.getD "").trim
        libraries := libs
        include_dirs := baseIncludes ++ t.include_dirs.getD []
        install_to := t.install_to.getD []
        install_includes := t.install_includes.getD [] }

/-- `buildinfo.load` on a validated document: register local library-kind targets
into a copy of the registry, then resolve every target in declaration order. -/
def loadInfo (doc : InfoDoc) (libraries : List (String × Library)) : Except LoadError Info := do
  let all := mergedRegistry libraries doc.targets
  let baseIncludes := doc.include_dirs.getD []
  let baseFlags := doc.flags.getD "" ++ " "
  let targets ← mapExcept (loadTarget all doc baseIncludes baseFlags) doc.targets
  .ok { projectname := doc.projectname
        builddir := doc.builddir
        copy := doc.copy.getD []
        targets := targets }

/-! ## Heap model of the registry-copy discipline of `buildinfo.load` (for C4)

`buildinfo.load` receives the caller's dict by reference, copies it with
`libraries.copy()`, and performs all insertions on the copy.  To state the frame
property faithfully we model dict references explicitly: a heap is a list of
registries and a reference is an index into it. -/

/-- The registration phase of `buildinfo.load` with an explicit heap: `r` is the
caller's dict reference; `libraries.copy()` allocates a fresh cell holding the same
mapping, and every insertion of the registration loop mutates the fresh cell.
Returns the final heap and the reference to the copy. -/
def loadCopyPhase (heap : List (List (String × Library))) (r : Nat)
    (targets : List TargetDoc) : List (List (String × Library)) × Nat :=
  let c := heap.length
  let heap1 := heap ++ [(heap[r]?).getD []]
  (targets.foldl (fun h t => h.set c (insertLib ((h[c]?).getD []) t)) heap1, c)

/-! ## The source-set change detector (`driver.check_source_files`) -/

/-- Python's `str.split('\n')` at the character level: split at every newline,
never collapsing (so `""` splits to `[""]` and a trailing newline yields a final
empty field). -/
def splitNl : List Char → List (List Char)
  | [] => [[]]
  | c :: cs =>
    match splitNl cs with
    | [] => [[]]
    | h :: t => if c = '\n' then [] :: h :: t else (c :: h) :: t

/-- The persisted file format written by `check_source_files`:
`'\n'.join(srcs) + '\n'` at the character level, as a recursion (joining zero
fields gives the bare trailing newline; one field is the field plus the trailing
newline; otherwise a newline separates the head from the joined tail). -/
def joinNl : List (List Char) → List Char
  | [] => ['\n']
  | [s] => s ++ ['\n']
  | s :: rest => s ++ '\n' :: joinNl rest

/-- Contents written for one target: `'\n'.join(str(src) for src in srcs) + '\n'`. -/
def encodeSrcs (srcs : List String) : String := ⟨joinNl (srcs.map String.data)⟩

/-- Reading one record back:
`[pathlib.Path(line) for line in srcfile.read_text().split('\n') if line]`. -/
def decodeSrcs (s : String) : List String :=
  ((splitNl s.data).filter (fun l => l ≠ [])).map fun l => String.mk l

/-- The mutable fields of `BuildData` touched by `check_source_files`, plus the
record store under `builddir/srcs` (filename to file contents; old files are
removed as they are read, so the new store starts empty). -/
structure CheckState where
  store : List (String × String)
  run_cmake : Bool
  run_make : Bool
  need_cmake : Bool
deriving DecidableEq

/-- The body of the per-target loop of `check_source_files`.  `prev` is the
`all_srcs` dict read at entry (file contents keyed by target name); `t` carries the
target's name and its freshly expanded source list.  An empty expansion clears both
run flags; a missing or different previous record sets `need_cmake`; the current
list is always written to the store. -/
def checkStep (prev : List (String × String)) (st : CheckState) (t : String × List String) :
    CheckState :=
  let st1 := if t.2 = [] then { st with run_cmake := false, run_make := false } else st
  let st2 := if (lookupS t.1 prev).map decodeSrcs = some t.2 then st1
             else { st1 with need_cmake := true }
  { st2 with store := (t.1, encodeSrcs t.2) :: st2.store }

/-- `driver.check_source_files`, with the filesystem expansion abstracted: each
target is given with its already-expanded current source list (the concatenation
of `get_sources` over its patterns).  The previous store is read once at entry and
every record file deleted, so the resulting store holds exactly this run's lists. -/
def checkSourceFiles (prev : List (String × String)) (targets : List (String × List String))
    (rc rm nc : Bool) : CheckState :=
  targets.foldl (checkStep prev) { store := [], run_cmake := rc, run_make := rm, need_cmake := nc }

/-! ## Pattern expansion (`driver.get_sources`) -/

/-- `'*' in part` for one path segment. -/
def hasWild (s : String) : Bool := s.data.any (fun c => c == '*')

/-- `next((i for i, part in enumerate(parts) if '*' in part), None)`. -/
def firstWildIdx : List String → Option Nat
  | [] => none
  | p :: ps => if hasWild p then some 0 else (firstWildIdx ps).map (· + 1)

/-- `driver.get_sources`, with paths as segment lists and the filesystem glob
(`pathlib.Path.glob`) abstracted as an oracle taking the base directory and the
pattern segments.  A literal pattern is returned as a singleton; otherwise the
pattern is split at the first wildcard segment and `**` is prepended so the glob
recurses into subdirectories. -/
def getSources (glob : List String → List String → List (List String))
    (parts : List String) : List (List String) :=
  match firstWildIdx parts with
  | none => [parts]
  | some i => glob (parts.take i) ("**" :: parts.drop i)

/-! ## The generator (`driver.generate_cmake`)

`unique_list(..., key=id)` de-duplicates Library objects by object identity, so the
generator model keeps resolved libraries as indices into a pool: two value-equal
but distinct Library objects are distinct indices. -/

/-- A target as the generator sees it, with its resolved libraries as indices into
the library pool (object identity). -/
structure GenTarget where
  name : String
  type : TargetType
  srcs : List String
  flags : String
  libraries : List Nat
  include_dirs : List String
  install_to : List String
  install_includes : List String
deriving DecidableEq

/-- An `Info` value as the generator sees it, with the library object pool made
explicit for identity-based de-duplication. -/
structure GenInfo where
  projectname : String
  pool : List Library
  copy : List String
  targets : List GenTarget
deriving DecidableEq

/-- Fallback for out-of-pool indices (never used by pools produced by the loader). -/
def defaultLibrary : Library :=
  { name := "", find_package := [], pkg_check := [], include_dirs := [],
    link_dirs := [], link_libs := [] }

/-- Dereference a library index into the pool. -/
def libAt (g : GenInfo) (i : Nat) : Library := g.pool.getD i defaultLibrary

/-- `pathlib.Path(p).name` for a relative path given as a string. -/
def pathName (p : String) : String := (p.splitOn "/").getLastD ""

/-- `str(pathlib.Path(p).parent)` for a relative path given as a string. -/
def pathParent (p : String) : String :=
  match (p.splitOn "/").dropLast with
  | [] => "."
  | parts => String.intercalate "/" parts

/-- The `install_types` dict of `generate_cmake`. -/
def installTypeStr : TargetType → String
  | .executable => "RUNTIME"
  | .sharedlib => "LIBRARY"
  | .staticlib => "ARCHIVE"

/-- The per-target section of the generator loop.  Mirrors the aliasing in the
source: `include_dirs = target.include_dirs` followed by `include_dirs += [...]`
extends the target's own list in place, so the returned target carries the
extended list (this is the state `generate_cmake` leaves behind). -/
def renderTarget (g : GenInfo) (t : GenTarget) : GenTarget × List String :=
  let files_var := "SRC_FILES_" ++ t.name
  let srcs_str := String.intercalate " " t.srcs
  let fileLine := "file(GLOB_RECURSE " ++ files_var ++ " " ++ srcs_str ++ ")"
  let addLine :=
    match t.type with
    | .executable => "add_executable(" ++ t.name ++ " $\x7b" ++ files_var ++ "\x7d)"
    | .sharedlib => "add_library(" ++ t.name ++ " SHARED $\x7b" ++ files_var ++ "\x7d)"
    | .staticlib => "add_library(" ++ t.name ++ " STATIC $\x7b" ++ files_var ++ "\x7d)"
  let flagLines :=
    if t.flags ≠ "" then
      ["target_compile_options(" ++ t.name ++ " PRIVATE " ++ t.flags ++ ")"]
    else []
  let include_dirs := t.include_dirs ++ t.libraries.flatMap (fun i => (libAt g i).include_dirs)
  let incLines :=
    if include_dirs ≠ [] then
      ["target_include_directories(" ++ t.name ++ " PRIVATE "
        ++ String.intercalate " " include_dirs ++ ")"]
    else []
  let link_libs := t.libraries.flatMap (fun i => (libAt g i).link_libs)
  let linkLines :=
    if link_libs ≠ [] then
      ["target_link_libraries(" ++ t.name ++ " " ++ String.intercalate " " link_libs ++ ")"]
    else []
  ({ t with include_dirs := include_dirs },
   ["", fileLine, addLine] ++ flagLines ++ incLines ++ linkLines)

/-- The install section of `generate_cmake`: per-target install directives, then
one grouped `install(FILES ...)` for all literal install-include paths, then one
`install(DIRECTORY ...)` per wildcard install-include pattern. -/
def installLines (targets : List GenTarget) : List String :=
  let targetInstall := targets.flatMap fun t =>
    t.install_to.map fun dest =>
      "install(TARGETS " ++ t.name ++ " " ++ installTypeStr t.type
        ++ " DESTINATION " ++ dest ++ ")"
  let include_files := targets.flatMap fun t => t.install_includes.filter (fun i => !(hasWild i))
  let include_patterns := targets.flatMap fun t => t.install_includes.filter (fun i => hasWild i)
  let fileLines :=
    if include_files ≠ [] then
      ["install(FILES " ++ String.intercalate " " include_files ++ " DESTINATION include)"]
    else []
  let patLines := include_patterns.map fun p =>
    "install(DIRECTORY " ++ pathParent p ++ " DESTINATION include FILES_MATCHING PATTERN \""
      ++ pathName p ++ "\")"
  targetInstall ++ fileLines ++ patLines

/-- `driver.generate_cmake`: the list `cmake_data` of emitted lines, together with
the `Info` value as the call leaves it (each target's `include_dirs` extended in
place by its libraries' include dirs, see `renderTarget`). -/
def generateCmake (g : GenInfo) : GenInfo × List String :=
  let header := ["cmake_minimum_required(VERSION 2.8 FATAL_ERROR)", "",
                 "project(" ++ g.projectname ++ ")"]
  let all_libraries := uniqueList (g.targets.flatMap (fun t => t.libraries))
  let find_packs := all_libraries.flatMap (fun i => (libAt g i).find_package)
  let pkg_checks := all_libraries.flatMap (fun i => (libAt g i).pkg_check)
  let link_dirs := all_libraries.flatMap (fun i => (libAt g i).link_dirs)
  let findLines :=
    if find_packs ≠ [] then
      "" :: find_packs.map (fun p => "find_package(" ++ p ++ ")")
    else []
  let pkgLines :=
    if pkg_checks ≠ [] then
      ["", "INCLUDE(FindPkgConfig)", ""]
        ++ pkg_checks.map (fun c => "pkg_check_modules(" ++ c ++ ")")
    else []
  let dirLines :=
    if link_dirs ≠ [] then
      ["link_directories(" ++ String.intercalate " " link_dirs ++ ")"]
    else []
  let rendered := g.targets.map (renderTarget g)
  ({ g with targets := rendered.map Prod.fst },
   header ++ findLines ++ pkgLines ++ dirLines ++ rendered.flatMap Prod.snd
     ++ [""] ++ installLines (rendered.map Prod.fst) ++ g.copy)

/-- The final file text: `'\n'.join(cmake_data) + '\n'`. -/
def generateCmakeText (g : GenInfo) : String :=
  String.intercalate "\n" (generateCmake g).2 ++ "\n"

/-! ## Named projections of the generator output (used to state C9) -/

/-- The identity-de-duplicated resolved libraries across all targets
(`unique_list(..., key=id)` as pool indices). -/
def uniqueLibIdx (g : GenInfo) : List Nat :=
  uniqueList (g.targets.flatMap (fun t => t.libraries))

/-- Every identity-unique library's `link_dirs`, concatenated in first-seen order:
the list rendered into the aggregate `link_directories` directive. -/
def aggLinkDirs (g : GenInfo) : List String :=
  (uniqueLibIdx g).flatMap (fun i => (libAt g i).link_dirs)

/-- The fixed project header. -/
def headerLines (g : GenInfo) : List String :=
  ["cmake_minimum_required(VERSION 2.8 FATAL_ERROR)", "", "project(" ++ g.projectname ++ ")"]

/-- The `find_package` block. -/
def findPackLines (g : GenInfo) : List String :=
  let fp := (uniqueLibIdx g).flatMap (fun i => (libAt g i).find_package)
  if fp ≠ [] then "" :: fp.map (fun p => "find_package(" ++ p ++ ")") else []

/-- The `pkg_check_modules` block. -/
def pkgCheckLines (g : GenInfo) : List String :=
  let pc := (uniqueLibIdx g).flatMap (fun i => (libAt g i).pkg_check)
  if pc ≠ [] then
    ["", "INCLUDE(FindPkgConfig)", ""] ++ pc.map (fun c => "pkg_check_modules(" ++ c ++ ")")
  else []

/-- The aggregate link-search-path directive: a single line, emitted only when the
collected `link_dirs` list is non-empty. -/
def linkDirLines (g : GenInfo) : List String :=
  if aggLinkDirs g ≠ [] then
    ["link_directories(" ++ String.intercalate " " (aggLinkDirs g) ++ ")"]
  else []

/-- All per-target sections, in declaration order. -/
def perTargetLines (g : GenInfo) : List String :=
  (g.targets.map (renderTarget g)).flatMap Prod.snd

/-- Everything after the per-target sections: separator, install block, verbatim
`copy` lines. -/
def tailLines (g : GenInfo) : List String :=
  [""] ++ installLines ((g.targets.map (renderTarget g)).map Prod.fst) ++ g.copy

/-! ## Concrete inputs used by witnesses and counterexamples -/

/-- A one-entry catalog library for the C2 witness. -/
def c2Lib : Library :=
  { name := "x", find_package := [], pkg_check := [], include_dirs := [],
    link_dirs := [], link_libs := ["lx"] }

/-- A one-entry registry for the C2 witness. -/
def c2Reg : List (String × Library) := [("x", c2Lib)]

/-- A shared-library target document used by the C3/C4/C10 witnesses. -/
def libTargetDoc : TargetDoc :=
  { name := "mylib", type := some .sharedlib, srcs := ["a.c"], flags := none,
    libraries := none, include_dirs := none, install_to := none, install_includes := none }

/-- A catalog entry that collides with `libTargetDoc`'s name (for the C10 witness). -/
def c10CatLib : Library :=
  { name := "mylib", find_package := ["FindMyLib"], pkg_check := [],
    include_dirs := ["/usr/include/mylib"], link_dirs := ["/usr/lib/mylib"],
    link_libs := ["mylib_ext"] }

/-- A heap with one allocated registry (for the C4 witness). -/
def c4Heap : List (List (String × Library)) := [[("x", c2Lib)]]

/-- A project document whose only target (named `ta`) references the unbound
library name `nolib`. -/
def c5DocA : InfoDoc :=
  { projectname := "p", builddir := "bd", flags := none, libraries := none,
    include_dirs := none, copy := none,
    targets := [{ name := "ta", type := none, srcs := ["m.c"], flags := none,
                  libraries := some ["nolib"], include_dirs := none,
                  install_to := none, install_includes := none }] }

/-- The same document with the referencing target renamed to `tb`. -/
def c5DocB : InfoDoc :=
  { projectname := "p", builddir := "bd", flags := none, libraries := none,
    include_dirs := none, copy := none,
    targets := [{ name := "tb", type := none, srcs := ["m.c"], flags := none,
                  libraries := some ["nolib"], include_dirs := none,
                  install_to := none, install_includes := none }] }

/-- Previous-run store for the C6 witness: target `t1` recorded with `["a.c"]`. -/
def c6Prev : List (String × String) := [("t1", encodeSrcs ["a.c"])]

/-- Current targets for the C6 witness: `t1` unchanged, `t2` matching nothing. -/
def c6Targets : List (String × List String) := [("t1", ["a.c"]), ("t2", [])]

/-- Current targets for the C1 witness. -/
def c1Targets : List (String × List String) := [("t1", ["a.c"]), ("t2", ["b.c", "c.c"])]

/-- A concrete glob oracle for the C7 witness. -/
def c7Glob : List String → List String → List (List String) :=
  fun base pat => [base ++ pat]

/-- A library with one include dir (for the C8 failing input). -/
def c8Lib : Library :=
  { name := "mylib", find_package := [], pkg_check := [], include_dirs := ["incdir"],
    link_dirs := [], link_libs := ["mylib"] }

/-- The C8 failing input: one executable target resolving one library that has an
include dir. -/
def c8Info : GenInfo :=
  { projectname := "p", pool := [c8Lib], copy := [],
    targets := [{ name := "app", type := .executable, srcs := ["main.c"], flags := "",
                  libraries := [0], include_dirs := [], install_to := [],
                  install_includes := [] }] }

/-- Two value-distinct libraries declaring the same link dir (for the C9
counterexample). -/
def c9LibA : Library :=
  { name := "la", find_package := [], pkg_check := [], include_dirs := [],
    link_dirs := ["d"], link_libs := ["a"] }

/-- Second library declaring the same link dir `d`. -/
def c9LibB : Library :=
  { name := "lb", find_package := [], pkg_check := [], include_dirs := [],
    link_dirs := ["d"], link_libs := ["b"] }

/-- The C9 counterexample input: one target resolving both libraries. -/
def c9Info : GenInfo :=
  { projectname := "p", pool := [c9LibA, c9LibB], copy := [],
    targets := [{ name := "app", type := .executable, srcs := ["main.c"], flags := "",
                  libraries := [0, 1], include_dirs := [], install_to := [],
                  install_includes := [] }] }

/-- A small generator input exercising every C9 segment (for the C9 witness). -/
def c9WitInfo : GenInfo :=
  { projectname := "q", pool := [c9LibA], copy := [],
    targets := [{ name := "app", type := .executable, srcs := ["main.c"], flags := "",
                  libraries := [0], include_dirs := [], install_to := [],
                  install_includes := [] }] }

/-! # Theorems -/

/-! ## `unique_list` -/

theorem mem_uniqueListAux [DecidableEq α] (l : List α) :
    ∀ (seen : List α) (a : α), a ∈ uniqueListAux seen l ↔ a ∈ l ∧ a ∉ seen := by
  induction l with
  | nil => intro seen a; simp [uniqueListAux]
  | cons x xs ih =>
    intro seen a
    by_cases hx : x ∈ seen
    · simp only [uniqueListAux, if_pos hx, ih]
      constructor
      · rintro ⟨ha, hs⟩; exact ⟨List.mem_cons_of_mem _ ha, hs⟩
      · rintro ⟨ha, hs⟩
        rcases List.mem_cons.mp ha with rfl | ha
        · exact absurd hx hs
        · exact ⟨ha, hs⟩
    · simp only [uniqueListAux, if_neg hx]
      constructor
      · intro h
        rcases List.mem_cons.mp h with rfl | h
        · exact ⟨List.mem_cons_self _ _, hx⟩
        · rcases (ih _ _).mp h with ⟨ha, hs⟩
          refine ⟨List.mem_cons_of_mem _ ha, fun hc => hs (List.mem_cons_of_mem _ hc)⟩
      · rintro ⟨ha, hs⟩
        rcases List.mem_cons.mp ha with rfl | ha
        · exact List.mem_cons_self _ _
        · by_cases hax : a = x
          · subst hax; exact List.mem_cons_self _ _
          · refine List.mem_cons_of_mem _ ((ih _ _).mpr ⟨ha, ?_⟩)
            intro hc
            rcases List.mem_cons.mp hc with h | h
            · exact hax h
            · exact hs h

theorem mem_uniqueList [DecidableEq α] (l : List α) (a : α) :
    a ∈ uniqueList l ↔ a ∈ l := by
  simp [uniqueList, mem_uniqueListAux]

theorem nodup_uniqueListAux [DecidableEq α] (l : List α) :
    ∀ seen : List α, (uniqueListAux seen l).Nodup := by
  induction l with
  | nil => intro seen; simp [uniqueListAux]
  | cons x xs ih =>
    intro seen
    by_cases hx : x ∈ seen
    · simpa [uniqueListAux, if_pos hx] using ih seen
    · simp only [uniqueListAux, if_neg hx]
      refine List.nodup_cons.mpr ⟨?_, ih _⟩
      intro hc
      exact ((mem_uniqueListAux _ _ _).mp hc).2 (List.mem_cons_self _ _)

theorem nodup_uniqueList [DecidableEq α] (l : List α) : (uniqueList l).Nodup :=
  nodup_uniqueListAux l []

theorem sublist_uniqueListAux [DecidableEq α] (l : List α) :
    ∀ seen : List α, (uniqueListAux seen l).Sublist l := by
  induction l with
  | nil => intro seen; simp [uniqueListAux]
  | cons x xs ih =>
    intro seen
    by_cases hx : x ∈ seen
    · simpa [uniqueListAux, if_pos hx] using (ih seen).cons x
    · simpa [uniqueListAux, if_neg hx] using (ih (x :: seen)).cons₂ x

theorem sublist_uniqueList [DecidableEq α] (l : List α) : (uniqueList l).Sublist l :=
  sublist_uniqueListAux l []

theorem uniqueListAux_congr [DecidableEq α] (l : List α) :
    ∀ s₁ s₂ : List α, (∀ y, y ∈ s₁ ↔ y ∈ s₂) → uniqueListAux s₁ l = uniqueListAux s₂ l := by
  induction l with
  | nil => intro s₁ s₂ _; rfl
  | cons x xs ih =>
    intro s₁ s₂ h
    by_cases hx : x ∈ s₁
    · rw [uniqueListAux, uniqueListAux, if_pos hx, if_pos ((h x).mp hx), ih _ _ h]
    · have hx₂ : x ∉ s₂ := fun hc => hx ((h x).mpr hc)
      rw [uniqueListAux, uniqueListAux, if_neg hx, if_neg hx₂]
      refine congrArg (x :: ·) (ih _ _ ?_)
      intro y
      simp only [List.mem_cons]
      exact or_congr Iff.rfl (h y)

theorem uniqueListAux_cons_seen [DecidableEq α] (l : List α) :
    ∀ (a : α) (seen : List α),
      uniqueListAux (a :: seen) l = uniqueListAux seen (l.filter (fun x => x ≠ a)) := by
  induction l with
  | nil => intro a seen; rfl
  | cons x xs ih =>
    intro a seen
    by_cases hxa : x = a
    · subst hxa
      have hx : x ∈ x :: seen := List.mem_cons_self _ _
      rw [List.filter_cons_of_neg (by simp)]
      simp only [uniqueListAux]
      rw [if_pos hx]
      exact ih x seen
    · rw [List.filter_cons_of_pos (by simp [hxa])]
      by_cases hxs : x ∈ seen
      · have hx : x ∈ a :: seen := List.mem_cons_of_mem _ hxs
        simp only [uniqueListAux]
        rw [if_pos hx, if_pos hxs, ih a seen]
      · have hx : x ∉ a :: seen := by
          intro hc
          rcases List.mem_cons.mp hc with h | h
          · exact hxa h
          · exact hxs h
        simp only [uniqueListAux]
        rw [if_neg hx, if_neg hxs]
        refine congrArg (x :: ·) ?_
        rw [uniqueListAux_congr xs (x :: a :: seen) (a :: x :: seen)
          (by intro y; simp [List.mem_cons]; tauto)]
        exact ih a (x :: seen)

/-- The keep-first-occurrence characterization of `unique_list`. -/
theorem uniqueList_cons [DecidableEq α] (a : α) (l : List α) :
    uniqueList (a :: l) = a :: uniqueList (l.filter (fun x => x ≠ a)) := by
  simp only [uniqueList, uniqueListAux, List.not_mem_nil, if_neg (List.not_mem_nil a)]
  exact congrArg (a :: ·) (uniqueListAux_cons_seen l a [])

/-! ## Loader infrastructure -/

theorem mapExcept_ok_forall₂ (f : α → Except ε β) (l : List α) (bs : List β)
    (h : mapExcept f l = .ok bs) : List.Forall₂ (fun a b => f a = .ok b) l bs := by
  induction l generalizing bs with
  | nil =>
    simp only [mapExcept] at h
    cases h
    exact List.Forall₂.nil
  | cons a as ih =>
    simp only [mapExcept, bind, Except.bind] at h
    cases hfa : f a with
    | error e => rw [hfa] at h; cases h
    | ok b =>
      rw [hfa] at h
      cases hrest : mapExcept f as with
      | error e => rw [hrest] at h; cases h
      | ok bs' =>
        rw [hrest] at h
        cases h
        exact List.Forall₂.cons hfa (ih bs' hrest)

theorem mapExcept_error_cases (f : α → Except ε β) (l : List α) :
    (∃ bs, mapExcept f l = .ok bs) ∨
      (∃ e, mapExcept f l = .error e ∧ ∃ a ∈ l, f a = .error e) := by
  induction l with
  | nil => exact Or.inl ⟨[], rfl⟩
  | cons a as ih =>
    cases hfa : f a with
    | error e =>
      refine Or.inr ⟨e, ?_, a, List.mem_cons_self _ _, hfa⟩
      simp [mapExcept, bind, Except.bind, hfa]
    | ok b =>
      rcases ih with ⟨bs, hok⟩ | ⟨e, herr, a', ha', hfa'⟩
      · exact Or.inl ⟨b :: bs, by simp [mapExcept, bind, Except.bind, hfa, hok]⟩
      · refine Or.inr ⟨e, ?_, a', List.mem_cons_of_mem _ ha', hfa'⟩
        simp [mapExcept, bind, Except.bind, hfa, herr]

theorem forall₂_mem_left {r : α → β → Prop} {as : List α} {bs : List β}
    (h : List.Forall₂ r as bs) (a : α) (ha : a ∈ as) : ∃ b ∈ bs, r a b := by
  induction h with
  | nil => cases ha
  | cons hr _ ih =>
    rcases List.mem_cons.mp ha with rfl | ha'
    · exact ⟨_, List.mem_cons_self _ _, hr⟩
    · rcases ih ha' with ⟨b, hb, hrb⟩
      exact ⟨b, List.mem_cons_of_mem _ hb, hrb⟩

/-- Lookup in the merged registry: a name bound by some library-kind target
resolves to the self-referencing entry, anything else falls through to the base
catalog. -/
theorem mergedRegistry_lookupS (targets : List TargetDoc) :
    ∀ (base : List (String × Library)) (n : String),
      lookupS n (mergedRegistry base targets) =
        if targets.any (fun t => decide (t.name = n) && decide (isLibKind t)) then
          some (selfLib n)
        else lookupS n base := by
  induction targets with
  | nil => intro base n; simp [mergedRegistry]
  | cons t ts ih =>
    intro base n
    have hstep : mergedRegistry base (t :: ts) = mergedRegistry (insertLib base t) ts := rfl
    rw [hstep, ih]
    by_cases hany : ts.any (fun t => decide (t.name = n) && decide (isLibKind t)) = true
    · rw [if_pos hany, List.any_cons, if_pos (by simp [hany])]
    · rw [if_neg hany, List.any_cons]
      simp only [Bool.or_eq_true] at hany ⊢
      by_cases hk : isLibKind t
      · by_cases hn : t.name = n
        · rw [if_pos (Or.inl (by simp [hn, hk]))]
          simp [insertLib, if_pos hk, lookupS, hn]
        · rw [if_neg (by simp [hn, hany])]
          simp only [insertLib, if_pos hk, lookupS]
          rw [if_neg (fun hc => hn hc.symm)]
      · rw [if_neg (by simp [hk, hany]), insertLib, if_neg hk]

theorem resolveName_ok_iff (all : List (String × Library)) (n : String) (lib : Library) :
    resolveName all n = .ok lib ↔ lookupS n all = some lib := by
  unfold resolveName
  cases lookupS n all <;> simp

theorem resolveName_error_iff (all : List (String × Library)) (n : String) (e : LoadError) :
    resolveName all n = .error e ↔ e = .keyError n ∧ lookupS n all = none := by
  unfold resolveName
  cases lookupS n all <;> simp [eq_comm]

theorem getLibraries_ok_forall₂ (all : List (String × Library))
    (il tl : Option (List String)) (libs : List Library)
    (h : getLibraries all il tl = .ok libs) :
    List.Forall₂ (fun n lib => lookupS n all = some lib)
      (uniqueList ((il.getD []) ++ (tl.getD []))) libs := by
  refine (mapExcept_ok_forall₂ _ _ _ h).imp ?_
  intro n lib hnl
  exact (resolveName_ok_iff all n lib).mp hnl

theorem forall₂_lookup_map_name (all : List (String × Library))
    (hwf : ∀ n lib, lookupS n all = some lib → lib.name = n)
    {ns : List String} {libs : List Library}
    (h : List.Forall₂ (fun n lib => lookupS n all = some lib) ns libs) :
    libs.map Library.name = ns := by
  induction h with
  | nil => rfl
  | cons hr _ ih => simp [List.map_cons, ih, hwf _ _ hr]

theorem loadTarget_error_shape (all : List (String × Library)) (doc : InfoDoc)
    (bi : List String) (bf : String) (t : TargetDoc) (e : LoadError)
    (h : loadTarget all doc bi bf t = .error e) :
    getLibraries all doc.libraries t.libraries = .error e := by
  unfold loadTarget at h
  cases hg : getLibraries all doc.libraries t.libraries with
  | ok libs => rw [hg] at h; simp [bind, Except.bind] at h
  | error e' =>
    rw [hg] at h
    simp only [bind, Except.bind] at h
    cases h
    rfl

theorem loadTarget_ok_getLibraries (all : List (String × Library)) (doc : InfoDoc)
    (bi : List String) (bf : String) (t : TargetDoc) (tgt : Target)
    (h : loadTarget all doc bi bf t = .ok tgt) :
    ∃ libs, getLibraries all doc.libraries t.libraries = .ok libs := by
  unfold loadTarget at h
  cases hg : getLibraries all doc.libraries t.libraries with
  | ok libs => exact ⟨libs, rfl⟩
  | error e' => rw [hg] at h; simp [bind, Except.bind] at h

theorem loadInfo_eq (doc : InfoDoc) (reg : List (String × Library)) :
    loadInfo doc reg =
      match mapExcept (loadTarget (mergedRegistry reg doc.targets) doc
          (doc.include_dirs.getD []) (doc.flags.getD "" ++ " ")) doc.targets with
      | .error e => .error e
      | .ok targets =>
          .ok { projectname := doc.projectname, builddir := doc.builddir,
                copy := doc.copy.getD [], targets := targets } := by
  unfold loadInfo
  simp only [bind, Except.bind]
  cases mapExcept (loadTarget (mergedRegistry reg doc.targets) doc
      (doc.include_dirs.getD []) (doc.flags.getD "" ++ " ")) doc.targets <;> rfl

theorem loadInfo_ok_getLibraries (doc : InfoDoc) (reg : List (String × Library)) (info : Info)
    (h : loadInfo doc reg = .ok info) :
    ∀ t ∈ doc.targets,
      ∃ libs,
        getLibraries (mergedRegistry reg doc.targets) doc.libraries t.libraries = .ok libs := by
  intro t ht
  rw [loadInfo_eq] at h
  cases hm : mapExcept
      (loadTarget (mergedRegistry reg doc.targets) doc (doc.include_dirs.getD [])
        (doc.flags.getD "" ++ " ")) doc.targets with
  | error e => rw [hm] at h; cases h
  | ok tgts =>
    obtain ⟨tgt, _, htgt⟩ := forall₂_mem_left (mapExcept_ok_forall₂ _ _ _ hm) t ht
    exact loadTarget_ok_getLibraries _ _ _ _ _ _ htgt

theorem loadInfo_error_shape (doc : InfoDoc) (reg : List (String × Library)) (e : LoadError)
    (h : loadInfo doc reg = .error e) :
    ∃ n, e = .keyError n ∧ lookupS n (mergedRegistry reg doc.targets) = none := by
  rw [loadInfo_eq] at h
  rcases mapExcept_error_cases
      (loadTarget (mergedRegistry reg doc.targets) doc (doc.include_dirs.getD [])
        (doc.flags.getD "" ++ " ")) doc.targets with
    ⟨tgts, hok⟩ | ⟨e', herr, t, _, hft⟩
  · rw [hok] at h; cases h
  · rw [herr] at h
    cases h
    have hg := loadTarget_error_shape _ _ _ _ _ _ hft
    rcases mapExcept_error_cases (resolveName (mergedRegistry reg doc.targets))
        (uniqueList ((doc.libraries.getD []) ++ (t.libraries.getD []))) with
      ⟨libs, hok'⟩ | ⟨e'', herr', n, _, hfn⟩
    · rw [getLibraries] at hg; rw [hok'] at hg; cases hg
    · rw [getLibraries] at hg; rw [herr'] at hg
      cases hg
      rcases (resolveName_error_iff _ _ _).mp hfn with ⟨rfl, hnone⟩
      exact ⟨n, rfl, hnone⟩

theorem mergedRegistry_self_mem (base : List (String × Library)) (targets : List TargetDoc)
    (T : TargetDoc) (hT : T ∈ targets) (hk : isLibKind T) :
    lookupS T.name (mergedRegistry base targets) = some (selfLib T.name) := by
  rw [mergedRegistry_lookupS]
  rw [if_pos]
  exact List.any_eq_true.mpr ⟨T, hT, by simp [hk]⟩

theorem getLibraries_mem_of_lookup (all : List (String × Library))
    (il tl : Option (List String)) (libs : List Library) (n : String) (lib : Library)
    (hok : getLibraries all il tl = .ok libs)
    (hmem : n ∈ (il.getD []) ++ (tl.getD []))
    (hl : lookupS n all = some lib) : lib ∈ libs := by
  have hf := getLibraries_ok_forall₂ _ _ _ _ hok
  have hmem' : n ∈ uniqueList ((il.getD []) ++ (tl.getD [])) := (mem_uniqueList _ _).mpr hmem
  obtain ⟨lib', hlib', hl'⟩ := forall₂_mem_left hf n hmem'
  rw [hl] at hl'
  cases hl'
  exact hlib'

/-! ## Claim theorems: the loader -/

/-- C2: resolving a target's library list concatenates the project-level name list
with the target-level name list, removes duplicate names keeping only the first
occurrence, and yields exactly one Library per remaining name in first-occurrence
order; no name appears twice in the resolved list. -/
theorem c2_library_resolution (all : List (String × Library))
    (il tl : Option (List String)) (libs : List Library)
    (hwf : ∀ n lib, lookupS n all = some lib → lib.name = n)
    (hok : getLibraries all il tl = .ok libs) :
    List.Forall₂ (fun n lib => lookupS n all = some lib)
        (uniqueList ((il.getD []) ++ (tl.getD []))) libs
      ∧ libs.map Library.name = uniqueList ((il.getD []) ++ (tl.getD []))
      ∧ (libs.map Library.name).Nodup
      ∧ (uniqueList ((il.getD []) ++ (tl.getD []))).Sublist ((il.getD []) ++ (tl.getD []))
      ∧ (∀ a, a ∈ uniqueList ((il.getD []) ++ (tl.getD [])) ↔ a ∈ (il.getD []) ++ (tl.getD []))
      ∧ (∀ (a : String) (l : List String),
          uniqueList (a :: l) = a :: uniqueList (l.filter (fun x => x ≠ a))) := by
  have hf := getLibraries_ok_forall₂ all il tl libs hok
  have hmap := forall₂_lookup_map_name all hwf hf
  refine ⟨hf, hmap, ?_, sublist_uniqueList _, fun a => mem_uniqueList _ a,
    fun a l => uniqueList_cons a l⟩
  rw [hmap]
  exact nodup_uniqueList _

/-- Witness for C2 at a concrete registry and name lists. -/
theorem c2_library_resolution_witness :
    (∀ n lib, lookupS n c2Reg = some lib → lib.name = n)
      ∧ getLibraries c2Reg (some ["x", "x"]) none = .ok [c2Lib]
      ∧ (List.Forall₂ (fun n lib => lookupS n c2Reg = some lib)
            (uniqueList (((some ["x", "x"] : Option (List String)).getD [])
              ++ ((none : Option (List String)).getD []))) [c2Lib]
          ∧ [c2Lib].map Library.name
              = uniqueList (((some ["x", "x"] : Option (List String)).getD [])
                  ++ ((none : Option (List String)).getD []))
          ∧ ([c2Lib].map Library.name).Nodup
          ∧ (uniqueList (((some ["x", "x"] : Option (List String)).getD [])
                ++ ((none : Option (List String)).getD []))).Sublist
              (((some ["x", "x"] : Option (List String)).getD [])
                ++ ((none : Option (List String)).getD []))
          ∧ (∀ a, a ∈ uniqueList (((some ["x", "x"] : Option (List String)).getD [])
                ++ ((none : Option (List String)).getD []))
              ↔ a ∈ ((some ["x", "x"] : Option (List String)).getD [])
                ++ ((none : Option (List String)).getD []))
          ∧ (∀ (a : String) (l : List String),
              uniqueList (a :: l) = a :: uniqueList (l.filter (fun x => x ≠ a)))) :=
  have hwf : ∀ n lib, lookupS n c2Reg = some lib → lib.name = n := by
    intro n lib h
    by_cases hn : n = "x"
    · subst hn
      simp only [c2Reg, lookupS, if_pos rfl] at h
      cases h
      rfl
    · simp only [c2Reg, lookupS, if_neg hn] at h
      exact Option.noConfusion h
  have hok : getLibraries c2Reg (some ["x", "x"]) none = .ok [c2Lib] := rfl
  ⟨hwf, hok, c2_library_resolution c2Reg (some ["x", "x"]) none [c2Lib] hwf hok⟩

/-- C3: every shared-library or static-library target registers, before any
target's library list is resolved, a Library named after itself whose only content
is `link_libs = [T.name]`, and any target in the same project that lists that name
(wherever it is declared) resolves it to exactly that entry. -/
theorem c3_self_registration (base : List (String × Library)) (targets : List TargetDoc)
    (T : TargetDoc) (hT : T ∈ targets) (hk : isLibKind T) :
    lookupS T.name (mergedRegistry base targets) =
      some { name := T.name, find_package := [], pkg_check := [], include_dirs := [],
             link_dirs := [], link_libs := [T.name] }
      ∧ ∀ (il tl : Option (List String)) (libs : List Library),
          getLibraries (mergedRegistry base targets) il tl = .ok libs →
          T.name ∈ (il.getD []) ++ (tl.getD []) → selfLib T.name ∈ libs := by
  have hlook := mergedRegistry_self_mem base targets T hT hk
  exact ⟨hlook, fun il tl libs hok hmem =>
    getLibraries_mem_of_lookup _ il tl libs T.name (selfLib T.name) hok hmem hlook⟩

/-- Witness for C3: a shared-library target resolved by name from an empty base
catalog. -/
theorem c3_self_registration_witness :
    libTargetDoc ∈ [libTargetDoc] ∧ isLibKind libTargetDoc
      ∧ (lookupS libTargetDoc.name (mergedRegistry [] [libTargetDoc]) =
          some { name := libTargetDoc.name, find_package := [], pkg_check := [],
                 include_dirs := [], link_dirs := [],
                 link_libs := [libTargetDoc.name] }
          ∧ ∀ (il tl : Option (List String)) (libs : List Library),
              getLibraries (mergedRegistry [] [libTargetDoc]) il tl = .ok libs →
              libTargetDoc.name ∈ (il.getD []) ++ (tl.getD []) →
              selfLib libTargetDoc.name ∈ libs) :=
  ⟨List.mem_cons_self _ _, Or.inl rfl,
    c3_self_registration [] [libTargetDoc] libTargetDoc (List.mem_cons_self _ _) (Or.inl rfl)⟩

theorem foldSet_spec (targets : List TargetDoc) (c : Nat) :
    ∀ (h : List (List (String × Library))) (X : List (String × Library)),
      h[c]? = some X →
      (targets.foldl (fun h t => h.set c (insertLib ((h[c]?).getD []) t)) h)[c]?
          = some (targets.foldl insertLib X)
      ∧ ∀ j, j ≠ c →
          (targets.foldl (fun h t => h.set c (insertLib ((h[c]?).getD []) t)) h)[j]?
            = h[j]? := by
  induction targets with
  | nil => intro h X hX; exact ⟨hX, fun j _ => rfl⟩
  | cons t ts ih =>
    intro h X hX
    have hclen : c < h.length := by
      by_contra hlt
      rw [List.getElem?_eq_none (Nat.le_of_not_lt hlt)] at hX
      exact Option.noConfusion hX
    have hX' : (h.set c (insertLib ((h[c]?).getD []) t))[c]? = some (insertLib X t) := by
      rw [List.getElem?_set_self hclen, hX]
      rfl
    obtain ⟨h1, h2⟩ := ih (h.set c (insertLib ((h[c]?).getD []) t)) (insertLib X t) hX'
    refine ⟨h1, ?_⟩
    intro j hj
    have h3 := h2 j hj
    rw [List.getElem?_set_ne (Ne.symm hj)] at h3
    exact h3

/-- C4: `buildinfo.load` never mutates the caller's registry: all synthesized
self-referencing entries go into the copy allocated by `libraries.copy()`, so the
caller's heap cell is unchanged while the copy cell ends up holding the merged
registry. -/
theorem c4_caller_registry_unchanged (heap : List (List (String × Library))) (r : Nat)
    (targets : List TargetDoc) (hr : r < heap.length) :
    ((loadCopyPhase heap r targets).1)[r]? = heap[r]?
      ∧ ((loadCopyPhase heap r targets).1)[(loadCopyPhase heap r targets).2]?
          = some (mergedRegistry ((heap[r]?).getD []) targets) := by
  have hc : (heap ++ [(heap[r]?).getD []])[heap.length]? = some ((heap[r]?).getD []) := by
    rw [List.getElem?_append_right (Nat.le_refl _)]
    simp
  obtain ⟨h1, h2⟩ := foldSet_spec targets heap.length (heap ++ [(heap[r]?).getD []])
    ((heap[r]?).getD []) hc
  constructor
  · show (targets.foldl (fun h t => h.set heap.length (insertLib ((h[heap.length]?).getD []) t))
        (heap ++ [(heap[r]?).getD []]))[r]? = heap[r]?
    rw [h2 r (Nat.ne_of_lt hr)]
    exact List.getElem?_append_left hr
  · exact h1

/-- Witness for C4 at a one-cell heap and one library-kind target. -/
theorem c4_caller_registry_unchanged_witness :
    0 < c4Heap.length
      ∧ (((loadCopyPhase c4Heap 0 [libTargetDoc]).1)[0]? = c4Heap[0]?
          ∧ ((loadCopyPhase c4Heap 0 [libTargetDoc]).1)[(loadCopyPhase c4Heap 0 [libTargetDoc]).2]?
              = some (mergedRegistry ((c4Heap[0]?).getD []) [libTargetDoc])) :=
  ⟨Nat.zero_lt_succ _,
    c4_caller_registry_unchanged c4Heap 0 [libTargetDoc] (Nat.zero_lt_succ _)⟩

/-- C5 counterexample: the failure raised on an unknown library name carries only
the missing library name, never the referencing target: two documents differing
only in the referencing target's name fail with the identical error. -/
theorem c5_counterexample :
    loadInfo c5DocA [] = .error (.keyError "nolib")
      ∧ loadInfo c5DocB [] = .error (.keyError "nolib")
      ∧ c5DocA ≠ c5DocB :=
  ⟨rfl, rfl, by decide⟩

/-- C5 (amended): if some target references a library name absent from the merged
registry, model loading fails with a key-lookup error naming a missing library
name (the referencing target is not part of the error), and no Info value is
produced. -/
theorem c5_missing_library_fails (doc : InfoDoc) (reg : List (String × Library))
    (h : ∃ t ∈ doc.targets, ∃ n ∈ (doc.libraries.getD []) ++ (t.libraries.getD []),
          lookupS n (mergedRegistry reg doc.targets) = none) :
    ∃ n, loadInfo doc reg = .error (.keyError n)
      ∧ lookupS n (mergedRegistry reg doc.targets) = none := by
  cases hload : loadInfo doc reg with
  | ok info =>
    exfalso
    obtain ⟨t, ht, n, hn, hnone⟩ := h
    obtain ⟨libs, hlibs⟩ := loadInfo_ok_getLibraries doc reg info hload t ht
    have hf := getLibraries_ok_forall₂ _ _ _ _ hlibs
    have hmem : n ∈ uniqueList ((doc.libraries.getD []) ++ (t.libraries.getD [])) :=
      (mem_uniqueList _ _).mpr hn
    obtain ⟨lib, _, hl⟩ := forall₂_mem_left hf n hmem
    rw [hnone] at hl
    exact Option.noConfusion hl
  | error e =>
    obtain ⟨n, rfl, hnone⟩ := loadInfo_error_shape doc reg e hload
    exact ⟨n, rfl, hnone⟩

/-- Witness for the amended C5 at the concrete failing document. -/
theorem c5_missing_library_fails_witness :
    (∃ t ∈ c5DocA.targets, ∃ n ∈ (c5DocA.libraries.getD []) ++ (t.libraries.getD []),
        lookupS n (mergedRegistry [] c5DocA.targets) = none)
      ∧ ∃ n, loadInfo c5DocA [] = .error (.keyError n)
          ∧ lookupS n (mergedRegistry [] c5DocA.targets) = none :=
  ⟨by decide, c5_missing_library_fails c5DocA [] (by decide)⟩

/-- C10: a library-kind target whose name collides with a base-catalog entry
shadows it in the merged registry: resolution of that name yields the synthesized
self-referencing entry, not the catalog entry's metadata. -/
theorem c10_local_shadows_catalog (base : List (String × Library))
    (targets : List TargetDoc) (T : TargetDoc) (catLib : Library)
    (hbase : lookupS T.name base = some catLib)
    (hT : T ∈ targets) (hk : isLibKind T) :
    lookupS T.name (mergedRegistry base targets) = some (selfLib T.name)
      ∧ ∀ (il tl : Option (List String)) (libs : List Library),
          getLibraries (mergedRegistry base targets) il tl = .ok libs →
          T.name ∈ (il.getD []) ++ (tl.getD []) → selfLib T.name ∈ libs := by
  have hlook := mergedRegistry_self_mem base targets T hT hk
  exact ⟨hlook, fun il tl libs hok hmem =>
    getLibraries_mem_of_lookup _ il tl libs T.name (selfLib T.name) hok hmem hlook⟩

/-- Witness for C10: the catalog binds `mylib` yet resolution yields the local
target's self-referencing entry. -/
theorem c10_local_shadows_catalog_witness :
    lookupS libTargetDoc.name [("mylib", c10CatLib)] = some c10CatLib
      ∧ libTargetDoc ∈ [libTargetDoc] ∧ isLibKind libTargetDoc
      ∧ (lookupS libTargetDoc.name (mergedRegistry [("mylib", c10CatLib)] [libTargetDoc])
            = some (selfLib libTargetDoc.name)
          ∧ ∀ (il tl : Option (List String)) (libs : List Library),
              getLibraries (mergedRegistry [("mylib", c10CatLib)] [libTargetDoc]) il tl
                = .ok libs →
              libTargetDoc.name ∈ (il.getD []) ++ (tl.getD []) →
              selfLib libTargetDoc.name ∈ libs) :=
  ⟨rfl, List.mem_cons_self _ _, Or.inl rfl,
    c10_local_shadows_catalog [("mylib", c10CatLib)] [libTargetDoc] libTargetDoc c10CatLib
      rfl (List.mem_cons_self _ _) (Or.inl rfl)⟩

/-! ## The persisted record format -/

theorem splitNl_ne_nil : ∀ l : List Char, splitNl l ≠ [] := by
  intro l
  induction l with
  | nil => simp [splitNl]
  | cons c cs ih =>
    cases h : splitNl cs with
    | nil => exact absurd h ih
    | cons hd tl =>
      simp only [splitNl, h]
      by_cases hc : c = '\n' <;> simp [hc]

theorem splitNl_append : ∀ (s r : List Char), '\n' ∉ s →
    splitNl (s ++ '\n' :: r) = s :: splitNl r := by
  intro s
  induction s with
  | nil =>
    intro r _
    cases h : splitNl r with
    | nil => exact absurd h (splitNl_ne_nil r)
    | cons hd tl => simp [splitNl, h]
  | cons c cs ih =>
    intro r hs
    have hc : c ≠ '\n' := fun hc => hs (hc ▸ List.mem_cons_self c cs)
    have hcs : '\n' ∉ cs := fun hm => hs (List.mem_cons_of_mem _ hm)
    simp only [List.cons_append, splitNl, List.append_eq]
    rw [ih r hcs]
    simp [hc]

theorem splitNl_joinNl : ∀ (l : List (List Char)), (∀ s ∈ l, s ≠ [] ∧ '\n' ∉ s) →
    (splitNl (joinNl l)).filter (fun x => x ≠ []) = l := by
  intro l
  induction l with
  | nil => intro _; decide
  | cons s rest ih =>
    intro h
    have hs := h s (List.mem_cons_self _ _)
    have hrest : ∀ x ∈ rest, x ≠ [] ∧ '\n' ∉ x :=
      fun x hx => h x (List.mem_cons_of_mem _ hx)
    cases rest with
    | nil =>
      have hjoin : joinNl [s] = s ++ '\n' :: [] := rfl
      rw [hjoin, splitNl_append s [] hs.2]
      simp [hs.1, splitNl]
    | cons r rest' =>
      have hjoin : joinNl (s :: r :: rest') = s ++ '\n' :: joinNl (r :: rest') := rfl
      rw [hjoin, splitNl_append s _ hs.2]
      rw [List.filter_cons_of_pos (by simpa using hs.1)]
      rw [ih hrest]

theorem mk_data (s : String) : String.mk s.data = s := rfl

theorem data_ne_nil (t : String) (h : t ≠ "") : t.data ≠ [] := by
  intro hc
  apply h
  cases t with
  | mk d =>
    simp only at hc
    subst hc
    rfl

theorem map_mk_data : ∀ l : List String, (l.map String.data).map String.mk = l := by
  intro l
  induction l with
  | nil => rfl
  | cons s rest ih => simp [ih, mk_data]

/-- Round trip of the persisted record format: decoding an encoded list of
non-empty, newline-free path strings (including the empty list) yields the list
back. -/
theorem decodeSrcs_encodeSrcs (srcs : List String)
    (h : ∀ s ∈ srcs, s ≠ "" ∧ '\n' ∉ s.data) :
    decodeSrcs (encodeSrcs srcs) = srcs := by
  have hdata : (encodeSrcs srcs).data = joinNl (srcs.map String.data) := rfl
  unfold decodeSrcs
  rw [hdata, splitNl_joinNl (srcs.map String.data) ?_]
  · exact map_mk_data srcs
  · intro s hsm
    obtain ⟨t, ht, rfl⟩ := List.mem_map.mp hsm
    exact ⟨data_ne_nil t (h t ht).1, (h t ht).2⟩

/-! ## Change-detector loop projections -/

theorem checkStep_store (prev : List (String × String)) (st : CheckState)
    (t : String × List String) :
    (checkStep prev st t).store = (t.1, encodeSrcs t.2) :: st.store := by
  by_cases h1 : t.2 = []
  · by_cases h2 : (lookupS t.1 prev).map decodeSrcs = some t.2
    · simp only [checkStep, if_pos h1, if_pos h2]
    · simp only [checkStep, if_pos h1, if_neg h2]
  · by_cases h2 : (lookupS t.1 prev).map decodeSrcs = some t.2
    · simp only [checkStep, if_neg h1, if_pos h2]
    · simp only [checkStep, if_neg h1, if_neg h2]

theorem checkStep_run_cmake (prev : List (String × String)) (st : CheckState)
    (t : String × List String) :
    (checkStep prev st t).run_cmake = if t.2 = [] then false else st.run_cmake := by
  by_cases h1 : t.2 = []
  · by_cases h2 : (lookupS t.1 prev).map decodeSrcs = some t.2
    · simp only [checkStep, if_pos h1, if_pos h2]
    · simp only [checkStep, if_pos h1, if_neg h2]
  · by_cases h2 : (lookupS t.1 prev).map decodeSrcs = some t.2
    · simp only [checkStep, if_neg h1, if_pos h2]
    · simp only [checkStep, if_neg h1, if_neg h2]

theorem checkStep_run_make (prev : List (String × String)) (st : CheckState)
    (t : String × List String) :
    (checkStep prev st t).run_make = if t.2 = [] then false else st.run_make := by
  by_cases h1 : t.2 = []
  · by_cases h2 : (lookupS t.1 prev).map decodeSrcs = some t.2
    · simp only [checkStep, if_pos h1, if_pos h2]
    · simp only [checkStep, if_pos h1, if_neg h2]
  · by_cases h2 : (lookupS t.1 prev).map decodeSrcs = some t.2
    · simp only [checkStep, if_neg h1, if_pos h2]
    · simp only [checkStep, if_neg h1, if_neg h2]

theorem checkStep_need_cmake (prev : List (String × String)) (st : CheckState)
    (t : String × List String) :
    (checkStep prev st t).need_cmake =
      if (lookupS t.1 prev).map decodeSrcs = some t.2 then st.need_cmake else true := by
  by_cases h1 : t.2 = []
  · by_cases h2 : (lookupS t.1 prev).map decodeSrcs = some t.2
    · simp only [checkStep, if_pos h1, if_pos h2]
    · simp only [checkStep, if_pos h1, if_neg h2]
  · by_cases h2 : (lookupS t.1 prev).map decodeSrcs = some t.2
    · simp only [checkStep, if_neg h1, if_pos h2]
    · simp only [checkStep, if_neg h1, if_neg h2]

theorem checkFold_store (prev : List (String × String)) (ts : List (String × List String)) :
    ∀ st : CheckState,
      (ts.foldl (checkStep prev) st).store
        = ts.foldl (fun acc t => (t.1, encodeSrcs t.2) :: acc) st.store := by
  induction ts with
  | nil => intro st; rfl
  | cons t ts ih =>
    intro st
    rw [List.foldl_cons, List.foldl_cons, ih, checkStep_store]

theorem checkFold_need_cmake (prev : List (String × String))
    (ts : List (String × List String)) :
    ∀ st : CheckState,
      ((ts.foldl (checkStep prev) st).need_cmake = true ↔
        (st.need_cmake = true ∨ ∃ t ∈ ts, (lookupS t.1 prev).map decodeSrcs ≠ some t.2)) := by
  induction ts with
  | nil => intro st; simp
  | cons t ts ih =>
    intro st
    rw [List.foldl_cons, ih, checkStep_need_cmake,
      List.exists_mem_cons_iff
        (fun x : String × List String => (lookupS x.1 prev).map decodeSrcs ≠ some x.2) t ts]
    by_cases h2 : (lookupS t.1 prev).map decodeSrcs = some t.2
    · rw [if_pos h2]
      constructor
      · rintro (h | h)
        · exact Or.inl h
        · exact Or.inr (Or.inr h)
      · rintro (h | h | h)
        · exact Or.inl h
        · exact absurd h2 h
        · exact Or.inr h
    · rw [if_neg h2]
      constructor
      · intro _
        exact Or.inr (Or.inl h2)
      · intro _
        exact Or.inl rfl

theorem checkFold_run_cmake (prev : List (String × String))
    (ts : List (String × List String)) :
    ∀ st : CheckState,
      (ts.foldl (checkStep prev) st).run_cmake
        = if ∃ t ∈ ts, t.2 = [] then false else st.run_cmake := by
  induction ts with
  | nil => intro st; simp
  | cons t ts ih =>
    intro st
    rw [List.foldl_cons, ih, checkStep_run_cmake]
    by_cases h1 : t.2 = [] <;> by_cases hex : ∃ x ∈ ts, x.2 = [] <;>
      simp [List.exists_mem_cons_iff, h1, hex]

theorem checkFold_run_make (prev : List (String × String))
    (ts : List (String × List String)) :
    ∀ st : CheckState,
      (ts.foldl (checkStep prev) st).run_make
        = if ∃ t ∈ ts, t.2 = [] then false else st.run_make := by
  induction ts with
  | nil => intro st; simp
  | cons t ts ih =>
    intro st
    rw [List.foldl_cons, ih, checkStep_run_make]
    by_cases h1 : t.2 = [] <;> by_cases hex : ∃ x ∈ ts, x.2 = [] <;>
      simp [List.exists_mem_cons_iff, h1, hex]

theorem foldl_prepend_eq {α β : Type} (g : α → β) :
    ∀ (ts : List α) (acc : List β),
      ts.foldl (fun acc t => g t :: acc) acc = (ts.map g).reverse ++ acc := by
  intro ts
  induction ts with
  | nil => intro acc; simp
  | cons t ts ih =>
    intro acc
    rw [List.foldl_cons, ih]
    simp

theorem lookupS_mem_nodup {β : Type} :
    ∀ l : List (String × β), (l.map Prod.fst).Nodup → ∀ p ∈ l, lookupS p.1 l = some p.2 := by
  intro l
  induction l with
  | nil => intro _ p hp; cases hp
  | cons q rest ih =>
    intro hnd p hp
    obtain ⟨qk, qv⟩ := q
    rcases List.mem_cons.mp hp with rfl | hp'
    · simp [lookupS]
    · have hne : p.1 ≠ qk := by
        intro he
        have hin : p.1 ∈ rest.map Prod.fst := List.mem_map.mpr ⟨p, hp', rfl⟩
        rw [he] at hin
        exact (List.nodup_cons.mp hnd).1 hin
      simp only [lookupS, if_neg hne]
      exact ih (List.nodup_cons.mp hnd).2 p hp'

theorem store_after_run (prev : List (String × String)) (targets : List (String × List String))
    (rc rm nc : Bool) :
    (checkSourceFiles prev targets rc rm nc).store
      = (targets.map (fun t => (t.1, encodeSrcs t.2))).reverse := by
  rw [checkSourceFiles, checkFold_store, foldl_prepend_eq]
  simp

theorem lookup_store_run (targets : List (String × List String))
    (hnd : (targets.map Prod.fst).Nodup) (t : String × List String) (ht : t ∈ targets) :
    lookupS t.1 ((targets.map (fun x => (x.1, encodeSrcs x.2))).reverse)
      = some (encodeSrcs t.2) := by
  have hkeys : ((targets.map (fun x => (x.1, encodeSrcs x.2))).reverse).map Prod.fst
      = (targets.map Prod.fst).reverse := by
    rw [List.map_reverse, List.map_map]
    rfl
  have := lookupS_mem_nodup ((targets.map (fun x => (x.1, encodeSrcs x.2))).reverse)
    (by rw [hkeys]; exact List.nodup_reverse.mpr hnd)
    (t.1, encodeSrcs t.2)
    (by rw [List.mem_reverse]; exact List.mem_map.mpr ⟨t, ht, rfl⟩)
  exact this

/-! ## Claim theorems: the change detector -/

/-- C6: any target with an empty expanded source list clears both `run_cmake` and
`run_make` for the whole invocation, whatever the other targets did; independently
`need_cmake` (starting false) ends up true exactly when some target is new or its
current list differs from the decoded previous record by value or order. -/
theorem c6_empty_suppresses_and_need_cmake_iff (prev : List (String × String))
    (targets : List (String × List String)) (rc rm : Bool) :
    ((∃ t ∈ targets, t.2 = []) →
        (checkSourceFiles prev targets rc rm false).run_cmake = false
        ∧ (checkSourceFiles prev targets rc rm false).run_make = false)
    ∧ ((checkSourceFiles prev targets rc rm false).need_cmake = true ↔
        ∃ t ∈ targets, (lookupS t.1 prev).map decodeSrcs ≠ some t.2) := by
  constructor
  · intro hx
    rw [checkSourceFiles, checkFold_run_cmake, checkFold_run_make]
    simp [if_pos hx]
  · rw [checkSourceFiles, checkFold_need_cmake]
    simp

/-- Witness for C6: target `t2` matches nothing, suppressing both flags, while
`need_cmake` is true exactly because `t2` has no previous record. -/
theorem c6_empty_suppresses_witness :
    (∃ t ∈ c6Targets, t.2 = [])
      ∧ ((checkSourceFiles c6Prev c6Targets true true false).run_cmake = false
          ∧ (checkSourceFiles c6Prev c6Targets true true false).run_make = false)
      ∧ ((checkSourceFiles c6Prev c6Targets true true false).need_cmake = true ↔
          ∃ t ∈ c6Targets, (lookupS t.1 c6Prev).map decodeSrcs ≠ some t.2) :=
  have hx : ∃ t ∈ c6Targets, t.2 = [] := ⟨("t2", []), by decide, rfl⟩
  ⟨hx, (c6_empty_suppresses_and_need_cmake_iff c6Prev c6Targets true true).1 hx,
    (c6_empty_suppresses_and_need_cmake_iff c6Prev c6Targets true true).2⟩

/-- C1: when the second run recomputes the same per-target lists as the first run
(target names unique, paths non-empty and newline-free), the second run's
`need_cmake` is false, because the first run persisted exactly those lists and the
newline-joined persistence round-trips every such list, including the empty one. -/
theorem c1_second_run_no_regeneration (prev : List (String × String))
    (targets : List (String × List String)) (rc1 rm1 rc2 rm2 : Bool)
    (hnd : (targets.map Prod.fst).Nodup)
    (hval : ∀ t ∈ targets, ∀ s ∈ t.2, s ≠ "" ∧ '\n' ∉ s.data) :
    (checkSourceFiles (checkSourceFiles prev targets rc1 rm1 false).store
        targets rc2 rm2 false).need_cmake = false
      ∧ ∀ l : List String,
          (∀ s ∈ l, s ≠ "" ∧ '\n' ∉ s.data) → decodeSrcs (encodeSrcs l) = l := by
  refine ⟨?_, fun l hl => decodeSrcs_encodeSrcs l hl⟩
  rw [store_after_run]
  by_contra hne
  rw [Bool.not_eq_false] at hne
  rw [checkSourceFiles, checkFold_need_cmake] at hne
  rcases hne with hfalse | ⟨t, ht, hdiff⟩
  · exact Bool.false_ne_true hfalse
  · apply hdiff
    rw [lookup_store_run targets hnd t ht]
    simp [decodeSrcs_encodeSrcs t.2 (hval t ht)]

/-- Witness for C1 at two concrete targets. -/
theorem c1_second_run_no_regeneration_witness :
    (c1Targets.map Prod.fst).Nodup
      ∧ (∀ t ∈ c1Targets, ∀ s ∈ t.2, s ≠ "" ∧ '\n' ∉ s.data)
      ∧ ((checkSourceFiles (checkSourceFiles [] c1Targets true true false).store
            c1Targets true true false).need_cmake = false
          ∧ ∀ l : List String,
              (∀ s ∈ l, s ≠ "" ∧ '\n' ∉ s.data) → decodeSrcs (encodeSrcs l) = l) :=
  ⟨by decide, by decide,
    c1_second_run_no_regeneration [] c1Targets true true true true (by decide) (by decide)⟩

/-! ## Claim theorems: pattern expansion -/

theorem firstWildIdx_none (parts : List String) (h : ∀ p ∈ parts, hasWild p = false) :
    firstWildIdx parts = none := by
  induction parts with
  | nil => rfl
  | cons p ps ih =>
    rw [firstWildIdx, if_neg (by rw [h p (List.mem_cons_self _ _)]; exact Bool.false_ne_true),
      ih (fun q hq => h q (List.mem_cons_of_mem _ hq))]
    rfl

theorem firstWildIdx_append (pre : List String) (w : String) (suf : List String)
    (hpre : ∀ p ∈ pre, hasWild p = false) (hw : hasWild w = true) :
    firstWildIdx (pre ++ w :: suf) = some pre.length := by
  induction pre with
  | nil => rw [List.nil_append, firstWildIdx, if_pos hw]; rfl
  | cons p ps ih =>
    rw [List.cons_append, firstWildIdx,
      if_neg (by rw [hpre p (List.mem_cons_self _ _)]; exact Bool.false_ne_true),
      ih (fun q hq => hpre q (List.mem_cons_of_mem _ hq))]
    rfl

/-- C7: a pattern with no wildcard in any segment expands to exactly the
one-element list holding the pattern unchanged; a pattern with a wildcard is split
at the first wildcard segment, the segments before it become the glob's base
directory, and the remaining segments (wildcard segment included) are matched
recursively (`**` prepended) under that base. -/
theorem c7_pattern_expansion (glob : List String → List String → List (List String))
    (parts : List String) :
    ((∀ p ∈ parts, hasWild p = false) → getSources glob parts = [parts])
      ∧ ∀ pre w suf, parts = pre ++ w :: suf → (∀ p ∈ pre, hasWild p = false) →
          hasWild w = true → getSources glob parts = glob pre ("**" :: w :: suf) := by
  constructor
  · intro h
    unfold getSources
    rw [firstWildIdx_none parts h]
  · rintro pre w suf rfl hpre hw
    have h1 : getSources glob (pre ++ w :: suf)
        = glob ((pre ++ w :: suf).take pre.length)
            ("**" :: (pre ++ w :: suf).drop pre.length) := by
      unfold getSources
      rw [firstWildIdx_append pre w suf hpre hw]
    rw [h1, List.take_left, List.drop_left]

/-- Witness for C7: a literal pattern and a wildcard pattern at a concrete glob
oracle. -/
theorem c7_pattern_expansion_witness :
    (∀ p ∈ ["a", "b.c"], hasWild p = false)
      ∧ hasWild "*.c" = true
      ∧ getSources c7Glob ["a", "b.c"] = [["a", "b.c"]]
      ∧ getSources c7Glob ["src", "*.c"] = c7Glob ["src"] ["**", "*.c"] :=
  ⟨by decide, by decide,
    (c7_pattern_expansion c7Glob ["a", "b.c"]).1 (by decide),
    (c7_pattern_expansion c7Glob ["src", "*.c"]).2 ["src"] "*.c" [] rfl
      (by decide) (by decide)⟩

/-! ## Claim theorems: the generator -/

set_option maxRecDepth 4096 in
/-- C8 (code bug): rendering the same Info value twice is not byte-identical.
`generate_cmake` aliases `target.include_dirs` and extends it in place
(`include_dirs += [...]`), so the first render mutates the Info value and the
second render emits each library include dir twice. -/
theorem c8_second_render_differs :
    generateCmakeText c8Info ≠ generateCmakeText (generateCmake c8Info).1 := by
  decide

/-- C9 (amended): the generator emits a single aggregate `link_directories` line,
exactly when the concatenation of the identity-de-duplicated libraries' link_dirs
is non-empty, placed after the header/find_package/pkg_check blocks and before
every per-target section; the line lists each identity-unique library's link_dirs
in first-seen order (a directory path can repeat when distinct Library objects
declare it). -/
theorem c9_aggregate_link_dirs (g : GenInfo) :
    (generateCmake g).2 =
        headerLines g ++ findPackLines g ++ pkgCheckLines g ++ linkDirLines g
          ++ perTargetLines g ++ tailLines g
      ∧ (uniqueLibIdx g).Nodup
      ∧ (∀ i ∈ uniqueLibIdx g, ∀ d ∈ (libAt g i).link_dirs, d ∈ aggLinkDirs g)
      ∧ (∀ i, i ∈ uniqueLibIdx g ↔ ∃ t ∈ g.targets, i ∈ t.libraries)
      ∧ (aggLinkDirs g = [] → linkDirLines g = [])
      ∧ (aggLinkDirs g ≠ [] →
          linkDirLines g
            = ["link_directories(" ++ String.intercalate " " (aggLinkDirs g) ++ ")"]) := by
  refine ⟨?_, nodup_uniqueList _, ?_, ?_, ?_, ?_⟩
  · simp only [generateCmake, headerLines, findPackLines, pkgCheckLines, linkDirLines,
      perTargetLines, tailLines, uniqueLibIdx, aggLinkDirs]
    simp [List.append_assoc]
  · intro i hi d hd
    exact List.mem_flatMap_of_mem hi hd
  · intro i
    rw [uniqueLibIdx, mem_uniqueList]
    simp [List.mem_flatMap]
  · intro h
    simp [linkDirLines, h]
  · intro h
    simp [linkDirLines, h]

/-- Witness for C9 at a concrete input with one link dir. -/
theorem c9_aggregate_link_dirs_witness :
    aggLinkDirs c9WitInfo ≠ []
      ∧ linkDirLines c9WitInfo
          = ["link_directories(" ++ String.intercalate " " (aggLinkDirs c9WitInfo) ++ ")"]
      ∧ (generateCmake c9WitInfo).2 =
          headerLines c9WitInfo ++ findPackLines c9WitInfo ++ pkgCheckLines c9WitInfo
            ++ linkDirLines c9WitInfo ++ perTargetLines c9WitInfo ++ tailLines c9WitInfo :=
  ⟨by decide, (c9_aggregate_link_dirs c9WitInfo).2.2.2.2.2 (by decide),
    (c9_aggregate_link_dirs c9WitInfo).1⟩

/-- C9 counterexample: two value-distinct resolved Library objects declaring the
same directory yield the directive `link_directories(d d)` - the aggregate lists a
directory path twice, refuting "each directory path appearing once". -/
theorem c9_counterexample :
    aggLinkDirs c9Info = ["d", "d"]
      ∧ ¬ (aggLinkDirs c9Info).Nodup
      ∧ "link_directories(d d)" ∈ (generateCmake c9Info).2 := by
  refine ⟨by decide, by decide, by decide⟩

end Build
